import Mathlib

/-!
Verification of the Projection `ui_host` runtime (Rust sources
`slint/ui_host_runtime/src/lib.rs`, `slint/ui_host/src/protocol.rs`, and the
template copy `patch_apply.rs`) against its natural-language specification.

The Rust code is shallowly embedded:
* `serde_json::Value` becomes the inductive `Json`; `serde_json::Map` becomes a
  key-unique association list (`List (String × Json)`) with lookup / insert /
  remove helpers matching the map API used by the code;
* functions that mutate through `&mut` references are translated to functions
  that return the updated value: the in-place descent of `set_path` /
  `remove_path` becomes a recursive function that rebuilds the document along
  the descent path, so mutations made before a failure persist exactly as in
  the Rust code;
* `u64` is `Nat` with explicit `% 2 ^ 64` where the code uses wrapping
  arithmetic; `usize` parsing (`str::parse::<usize>`) is modelled including
  the optional leading `+`, leading zeros, and the 64-bit overflow failure;
* byte streams (`stdin` / `stdout`) become `List Nat`; `read_exact` consumes a
  prefix of the stream or fails with an `UnexpectedEof`-kind error, mirroring
  `std::io`.
-/

set_option autoImplicit false

namespace Projection

/-- JSON values, mirroring `serde_json::Value`. Objects are key-unique
association lists; numbers are irrelevant to every verified operation and are
modelled as integers. -/
inductive Json where
  | null
  | bool (b : Bool)
  | num (n : Int)
  | str (s : String)
  | arr (items : List Json)
  | obj (entries : List (String × Json))

/-- Lookup in an object, mirroring `Map::get` / `Map::get_mut`. -/
def lookupKey : List (String × Json) → String → Option Json
  | [], _ => none
  | (k, v) :: rest, key => if k = key then some v else lookupKey rest key

/-- Key-membership test, mirroring `Map::contains_key`. -/
def containsKey (entries : List (String × Json)) (key : String) : Bool :=
  (lookupKey entries key).isSome

/-- Insert-or-overwrite, mirroring `Map::insert` (existing key keeps its
position; a new key is appended). -/
def insertKey : List (String × Json) → String → Json → List (String × Json)
  | [], key, v => [(key, v)]
  | (k, w) :: rest, key, v =>
    if k = key then (key, v) :: rest else (k, w) :: insertKey rest key v

/-- Removal of a key, mirroring `Map::remove`. -/
def removeKey : List (String × Json) → String → List (String × Json)
  | [], _ => []
  | (k, w) :: rest, key =>
    if k = key then rest else (k, w) :: removeKey rest key

/-- Digit-string accumulation used by `str::parse::<usize>`: all characters
must be ASCII digits and the string must be nonempty. -/
def parseUsizeDigits : List Char → Option Nat
  | [] => none
  | cs =>
    if cs.all Char.isDigit then
      some (cs.foldl (fun acc c => acc * 10 + (c.toNat - 48)) 0)
    else none

/-- Rust `str::parse::<usize>()` (on a 64-bit target): an optional leading
`+`, then one or more ASCII digits; values at or above `2 ^ 64` overflow and
fail. -/
def rustParseUsize (s : String) : Option Nat :=
  let cs := match s.data with
    | '+' :: rest => rest
    | cs => cs
  match parseUsizeDigits cs with
  | some n => if n < 2 ^ 64 then some n else none
  | none => none

/-- Embedding of `parse_index` from `lib.rs` lines 758-770: parse the token as
`usize`, then reject indices above `max_len`. -/
def parse_index (token : String) (maxLen : Nat) (path : String) :
    Except String Nat :=
  match rustParseUsize token with
  | none => Except.error s!"invalid array index '{token}' at path {path}"
  | some index =>
    if index > maxLen then
      Except.error s!"array index out of bounds '{token}' at path {path}"
    else
      Except.ok index

/-- Embedding of `unescape_json_pointer_token` (`lib.rs` lines 708-728) on the
character list of the token: `~0` becomes `~`, `~1` becomes `/`, any other
escape and a trailing `~` are errors. -/
def unescapeChars : List Char → Except String (List Char)
  | [] => Except.ok []
  | c :: rest =>
    if c = '~' then
      match rest with
      | [] => Except.error "trailing ~ in json pointer token"
      | e :: rest2 =>
        if e = '0' then (unescapeChars rest2).map (fun out => '~' :: out)
        else if e = '1' then (unescapeChars rest2).map (fun out => '/' :: out)
        else Except.error s!"invalid escape ~{e} in json pointer token"
    else (unescapeChars rest).map (fun out => c :: out)

/-- String-level wrapper for `unescape_json_pointer_token`. -/
def unescape_json_pointer_token (token : String) : Except String String :=
  (unescapeChars token.data).map (fun cs => String.mk cs)

/-- Splitting on a separator character, mirroring Rust `str::split(sep)`
(which yields `n + 1` pieces for `n` separators, including empty pieces). -/
def splitOnChar (sep : Char) : List Char → List (List Char)
  | [] => [[]]
  | c :: rest =>
    if c = sep then [] :: splitOnChar sep rest
    else
      match splitOnChar sep rest with
      | t :: ts => (c :: t) :: ts
      | [] => [[c]]

/-- Embedding of `parse_pointer` (`lib.rs` lines 693-706): the empty path is
the empty token list; a non-empty path must start with `/`; the tokens are the
`/`-separated pieces after the leading slash (Rust `split('/').skip(1)`), each
unescaped. -/
def parse_pointer (path : String) : Except String (List String) :=
  if path = "" then Except.ok []
  else
    match path.data with
    | '/' :: rest =>
      (splitOnChar '/' rest).mapM
        (fun t => unescape_json_pointer_token (String.mk t))
    | _ => Except.error s!"invalid json pointer path: {path}"

/-- Embedding of `descend_existing` (`lib.rs` lines 747-756), read side:
object lookup by key, array lookup by `str::parse::<usize>` index. -/
def descend_existing (value : Json) (token : String) : Option Json :=
  match value with
  | Json.obj entries => lookupKey entries token
  | Json.arr items => (rustParseUsize token).bind (fun i => items.get? i)
  | _ => none

/-- Terminal write of `set_path` (`lib.rs` lines 628-649): on an object parent
a `replace_only` write to a missing key fails, otherwise the key is
inserted/overwritten; on an array parent the index is checked against
`[0, len]` with `index == len` appending (note: `replace_only` is not
consulted here); a scalar parent is an error. -/
def setTerminal (parent : Json) (last : String) (value : Json)
    (replaceOnly : Bool) (path : String) : Json × Except String Unit :=
  match parent with
  | Json.obj entries =>
    if replaceOnly ∧ ¬ containsKey entries last then
      (Json.obj entries, Except.error s!"replace path does not exist: {path}")
    else
      (Json.obj (insertKey entries last value), Except.ok ())
  | Json.arr items =>
    match parse_index last items.length path with
    | Except.error e => (Json.arr items, Except.error e)
    | Except.ok index =>
      if index = items.length then
        (Json.arr (items ++ [value]), Except.ok ())
      else
        (Json.arr (items.set index value), Except.ok ())
  | other => (other, Except.error s!"cannot set path on non-container parent: {path}")

/-- Recursive descent of `set_path` over the parsed tokens (first token plus
remaining tokens, so the list is never empty). The non-terminal step is
`descend_or_create` (`lib.rs` lines 730-745): on an object, `entry(token)`
inserts an empty object for a missing key; on an array, the token is parsed
with `parse_index(token, len, token)` and must address an existing element.
The `&mut` descent of the Rust code is modelled by rebuilding the document, so
intermediates created before a later failure persist. -/
def setGo (current : Json) (token : String) (rest : List String)
    (value : Json) (replaceOnly : Bool) (path : String) :
    Json × Except String Unit :=
  match rest with
  | [] => setTerminal current token value replaceOnly path
  | next :: rest2 =>
    match current with
    | Json.obj entries =>
      let child := (lookupKey entries token).getD (Json.obj [])
      let r := setGo child next rest2 value replaceOnly path
      (Json.obj (insertKey entries token r.1), r.2)
    | Json.arr items =>
      match parse_index token items.length token with
      | Except.error e => (Json.arr items, Except.error e)
      | Except.ok index =>
        if h : index < items.length then
          let r := setGo (items.get ⟨index, h⟩) next rest2 value replaceOnly path
          (Json.arr (items.set index r.1), r.2)
        else
          (Json.arr items,
           Except.error s!"array index out of bounds at token {token}")
    | other =>
      (other,
       Except.error s!"cannot descend into non-container value at token {token}")

/-- Embedding of `set_path` (`lib.rs` lines 612-650). Returns the updated
document together with the result; on failure the document keeps every
mutation made before the failing step, exactly as the in-place Rust code. -/
def set_path (root : Json) (path : String) (value : Json)
    (replaceOnly : Bool) : Json × Except String Unit :=
  match parse_pointer path with
  | Except.error e => (root, Except.error e)
  | Except.ok [] => (value, Except.ok ())
  | Except.ok (t :: ts) => setGo root t ts value replaceOnly path

/-- Terminal step of `remove_path` (`lib.rs` lines 669-690): remove a key
from an object parent or an element (index in `[0, len - 1]`, checked via
`parse_index(last, len.saturating_sub(1), path)`) from an array parent. -/
def removeTerminal (parent : Json) (last : String) (path : String) :
    Json × Except String Unit :=
  match parent with
  | Json.obj entries =>
    if containsKey entries last then
      (Json.obj (removeKey entries last), Except.ok ())
    else
      (Json.obj entries, Except.error s!"remove path does not exist: {path}")
  | Json.arr items =>
    match parse_index last (items.length - 1) path with
    | Except.error e => (Json.arr items, Except.error e)
    | Except.ok index =>
      if index < items.length then
        (Json.arr (items.eraseIdx index), Except.ok ())
      else
        (Json.arr items,
         Except.error s!"remove path index out of bounds: {path}")
  | other =>
    (other, Except.error s!"cannot remove path on non-container parent: {path}")

/-- Recursive descent of `remove_path` over the parsed tokens, using the
non-creating `descend_existing` (`lib.rs` lines 747-756): a missing
intermediate is an error, and the `&mut` descent is modelled by rebuilding. -/
def removeGo (current : Json) (token : String) (rest : List String)
    (path : String) : Json × Except String Unit :=
  match rest with
  | [] => removeTerminal current token path
  | next :: rest2 =>
    match current with
    | Json.obj entries =>
      match lookupKey entries token with
      | some child =>
        let r := removeGo child next rest2 path
        (Json.obj (insertKey entries token r.1), r.2)
      | none =>
        (Json.obj entries,
         Except.error s!"remove path does not exist: {path}")
    | Json.arr items =>
      match rustParseUsize token with
      | some index =>
        if h : index < items.length then
          let r := removeGo (items.get ⟨index, h⟩) next rest2 path
          (Json.arr (items.set index r.1), r.2)
        else
          (Json.arr items,
           Except.error s!"remove path does not exist: {path}")
      | none =>
        (Json.arr items,
         Except.error s!"remove path does not exist: {path}")
    | other =>
      (other, Except.error s!"remove path does not exist: {path}")

/-- Embedding of `remove_path` (`lib.rs` lines 652-691). An empty path resets
the root to an empty object. -/
def remove_path (root : Json) (path : String) : Json × Except String Unit :=
  match parse_pointer path with
  | Except.error e => (root, Except.error e)
  | Except.ok [] => (Json.obj [], Except.ok ())
  | Except.ok (t :: ts) => removeGo root t ts path

/-- Patch operations, mirroring `PatchOp` in `protocol.rs` lines 48-57. -/
inductive PatchOp where
  | replace (path : String) (value : Json)
  | add (path : String) (value : Json)
  | remove (path : String)

/-- Path of an op, as bound by the single match arm in
`patch_changes_screen` (`lib.rs` line 490). -/
def PatchOp.path : PatchOp → String
  | PatchOp.replace p _ => p
  | PatchOp.add p _ => p
  | PatchOp.remove p => p

/-- One iteration of the loop body of `apply_vm_patch_ops` (`lib.rs` lines
602-606): `Replace` is `set_path` with `replace_only = true`, `Add` with
`false`, `Remove` is `remove_path`. -/
def apply_op (vm : Json) : PatchOp → Json × Except String Unit
  | PatchOp.replace path value => set_path vm path value true
  | PatchOp.add path value => set_path vm path value false
  | PatchOp.remove path => remove_path vm path

/-- Embedding of `apply_vm_patch_ops` (`lib.rs` lines 600-610): ops are
applied in order; the first failure aborts the loop, leaving the document in
its partially-mutated state. -/
def apply_vm_patch_ops : Json → List PatchOp → Json × Except String Unit
  | vm, [] => (vm, Except.ok ())
  | vm, op :: rest =>
    match apply_op vm op with
    | (vm2, Except.ok _) => apply_vm_patch_ops vm2 rest
    | (vm2, Except.error e) => (vm2, Except.error e)

/-- Embedding of `patch_changes_screen` (`lib.rs` lines 488-494) with the
default `HostBindings::patch_changes_screen` predicate (`lib.rs` lines 53-55,
hardcoded in the template `patch_apply.rs`): true iff some op's path equals
`"/screen/name"`. -/
def patch_changes_screen (ops : List PatchOp) : Bool :=
  ops.any (fun op => op.path == "/screen/name")

/-- Session state, mirroring `UiModelState` (`lib.rs` lines 58-64). `u64`
fields are `Nat` under the `< 2 ^ 64` range convention. -/
structure UiModelState (ScreenId : Type) where
  screen_id : ScreenId
  vm : Json
  last_rev : Option Nat
  last_ack : Option Nat

/-- Modulus of wrapping `u64` arithmetic. -/
def U64 : Nat := 2 ^ 64

/-- Embedding of `validate_render_rev` (`lib.rs` lines 496-508): with no
`last_rev` any revision is accepted; otherwise only `last_rev + 1` under
wrapping 64-bit addition. -/
def validate_render_rev {ScreenId : Type} (state : UiModelState ScreenId)
    (rev : Nat) : Except String Unit :=
  match state.last_rev with
  | some last_rev =>
    if rev = (last_rev + 1) % U64 then Except.ok ()
    else
      Except.error
        s!"render revision mismatch: rev={rev}, expected={(last_rev + 1) % U64}"
  | none => Except.ok ()

/-- Embedding of `validate_patch_rev` (`lib.rs` lines 510-524): with no
`last_rev` every patch is rejected; otherwise only `last_rev + 1` under
wrapping 64-bit addition is accepted. -/
def validate_patch_rev {ScreenId : Type} (state : UiModelState ScreenId)
    (rev : Nat) : Except String Unit :=
  match state.last_rev with
  | some last_rev =>
    if rev = (last_rev + 1) % U64 then Except.ok ()
    else
      Except.error
        s!"patch revision mismatch: rev={rev}, expected={(last_rev + 1) % U64}"
  | none =>
    Except.error
      s!"patch received before initial render: rev={rev}, expected initial render"

/-- Embedding of `mark_applied_rev` (`lib.rs` lines 526-528). -/
def mark_applied_rev {ScreenId : Type} (state : UiModelState ScreenId)
    (rev : Nat) : UiModelState ScreenId :=
  { state with last_rev := some rev }

/-- Embedding of `mark_applied_ack` (`lib.rs` lines 530-539): `None` is a
no-op; the first `Some` is stored; later `Some`s are merged by `max`. -/
def mark_applied_ack {ScreenId : Type} (state : UiModelState ScreenId)
    (ack : Option Nat) : UiModelState ScreenId :=
  match state.last_ack, ack with
  | _, none => state
  | none, some next => { state with last_ack := some next }
  | some current, some next => { state with last_ack := some (max current next) }

/-- Folding a sequence of `mark_applied_ack` calls over a state, for the
high-water-mark claim. -/
def runAcks {ScreenId : Type} (state : UiModelState ScreenId)
    (acks : List (Option Nat)) : UiModelState ScreenId :=
  acks.foldl mark_applied_ack state

/-- Specification-side value: `Some` of the maximum of the `Some` values in
the sequence, `None` when there are none. -/
def acksMax (acks : List (Option Nat)) : Option Nat :=
  match acks.filterMap id with
  | [] => none
  | v :: vs => some (vs.foldl max v)

/-- Toolkit bindings consumed by `apply_patch` (`HostBindings`, `lib.rs`
lines 44-51): the full-render adapter returns a fresh screen id, the
incremental-patch adapter takes the current one. -/
structure Bindings (ScreenId : Type) where
  apply_screen_render : Json → Except String ScreenId
  apply_screen_patch : ScreenId → List PatchOp → Json → Except String Unit

/-- Observable toolkit invocations made by `apply_patch`, used to state which
adapter the code calls: pushing the global properties, a full screen render,
or an incremental screen patch. -/
inductive ToolkitCall (ScreenId : Type) where
  | globals (vm : Json)
  | render (vm : Json)
  | patch (id : ScreenId) (ops : List PatchOp) (vm : Json)

/-- Embedding of `apply_patch` (`lib.rs` lines 432-447): mutate the VM via
`apply_vm_patch_ops` (on failure the partially-mutated VM is kept in the
state, as the Rust code mutates `ui_model_state.vm` in place), push global
properties, then either do a full `apply_screen_render` (storing the new
screen id) when `patch_changes_screen ops` is true or an incremental
`apply_screen_patch` with the existing screen id otherwise. The call trace is
returned alongside the updated state and the result. -/
def apply_patch {ScreenId : Type} (B : Bindings ScreenId)
    (ops : List PatchOp) (state : UiModelState ScreenId) :
    (UiModelState ScreenId × Except String Unit) × List (ToolkitCall ScreenId) :=
  match apply_vm_patch_ops state.vm ops with
  | (vm2, Except.error e) => (({ state with vm := vm2 }, Except.error e), [])
  | (vm2, Except.ok _) =>
    let state2 := { state with vm := vm2 }
    if patch_changes_screen ops then
      match B.apply_screen_render vm2 with
      | Except.ok sid =>
        (({ state2 with screen_id := sid }, Except.ok ()),
         [ToolkitCall.globals vm2, ToolkitCall.render vm2])
      | Except.error e =>
        ((state2, Except.error e),
         [ToolkitCall.globals vm2, ToolkitCall.render vm2])
    else
      match B.apply_screen_patch state2.screen_id ops vm2 with
      | Except.ok _ =>
        ((state2, Except.ok ()),
         [ToolkitCall.globals vm2,
          ToolkitCall.patch state2.screen_id ops vm2])
      | Except.error e =>
        ((state2, Except.error e),
         [ToolkitCall.globals vm2,
          ToolkitCall.patch state2.screen_id ops vm2])

/-- Error kinds of `std::io` used by the framing codec. -/
inductive IoErrorKind where
  | unexpectedEof
  | invalidData
deriving DecidableEq

/-- An `std::io::Error`: a kind plus a message. -/
structure IoError where
  kind : IoErrorKind
  msg : String

/-- Outbound frame-size ceiling (`protocol.rs` line 6). -/
def UI_TO_ELIXIR_CAP : Nat := 65536

/-- Inbound frame-size ceiling (`protocol.rs` line 7). -/
def ELIXIR_TO_UI_CAP : Nat := 1048576

/-- Rust `Read::read_exact` over a byte stream modelled as a list: returns
the first `n` bytes and the remainder, or an `UnexpectedEof` error when the
stream is shorter than `n`. -/
def read_exact (stream : List Nat) (n : Nat) :
    Except IoError (List Nat × List Nat) :=
  if n ≤ stream.length then Except.ok (stream.take n, stream.drop n)
  else Except.error ⟨IoErrorKind.unexpectedEof, "failed to fill whole buffer"⟩

/-- Big-endian interpretation of a byte list (`u32::from_be_bytes`). -/
def beToNat (bytes : List Nat) : Nat :=
  bytes.foldl (fun acc b => acc * 256 + b) 0

/-- Big-endian 4-byte encoding (`u32::to_be_bytes`). -/
def u32be (n : Nat) : List Nat :=
  [n / 2 ^ 24 % 256, n / 2 ^ 16 % 256, n / 2 ^ 8 % 256, n % 256]

/-- Embedding of `read_frame` (`protocol.rs` lines 123-138): read a 4-byte
big-endian length header, reject lengths above `max_payload` with
`InvalidData`, then read exactly that many payload bytes. Returns the payload
and the unconsumed remainder of the stream. -/
def read_frame (stream : List Nat) (maxPayload : Nat) :
    Except IoError (List Nat × List Nat) :=
  match read_exact stream 4 with
  | Except.error e => Except.error e
  | Except.ok (lenBuf, rest) =>
    let len := beToNat lenBuf
    if len > maxPayload then
      Except.error
        ⟨IoErrorKind.invalidData, s!"frame too large: {len} > {maxPayload}"⟩
    else
      match read_exact rest len with
      | Except.error e => Except.error e
      | Except.ok (payload, rest2) => Except.ok (payload, rest2)

/-- Embedding of `write_frame` (`protocol.rs` lines 140-154): reject payloads
above `max_payload` or above `u32::MAX`, else emit the 4-byte big-endian
length header followed by the payload. The bytes written to the sink are
returned. -/
def write_frame (payload : List Nat) (maxPayload : Nat) :
    Except IoError (List Nat) :=
  let plen := payload.length
  if payload.length > maxPayload then
    Except.error
      ⟨IoErrorKind.invalidData,
       s!"frame too large: {plen} > {maxPayload}"⟩
  else if payload.length ≥ 2 ^ 32 then
    Except.error ⟨IoErrorKind.invalidData, "payload exceeds u32"⟩
  else
    Except.ok (u32be payload.length ++ payload)

/-- Inbound envelopes, mirroring `ElixirEnvelope` (`protocol.rs` lines
23-46). -/
inductive ElixirEnvelope where
  | render (sid : String) (rev : Nat) (vm : Json)
  | patch (sid : String) (rev : Nat) (ack : Option Nat) (ops : List PatchOp)
  | error (sid : String) (rev : Option Nat) (code : String) (message : String)

/-- Embedding of `reader_loop` (`protocol.rs` lines 96-113) over a finite
byte stream. The serde decoder `decode_elixir_envelope` is a parameter (its
internals live in the serde library, not in this repository); the `on_envelope`
callback cannot fail and does not affect the returned result, so it is
dropped. The loop reads frames until `read_frame` fails: an
`UnexpectedEof`-kind failure yields success, any other failure — and any
decode failure — is returned as the error. -/
def reader_loop (decode : List Nat → Except IoError ElixirEnvelope)
    (stream : List Nat) : Except IoError Unit :=
  match hf : read_frame stream ELIXIR_TO_UI_CAP with
  | Except.ok (payload, rest) =>
    (match decode payload with
     | Except.ok _ => reader_loop decode rest
     | Except.error e => Except.error e)
  | Except.error e =>
    if e.kind = IoErrorKind.unexpectedEof then Except.ok ()
    else Except.error e
termination_by stream.length
decreasing_by
  by_cases h4 : 4 ≤ stream.length
  · by_cases h5 : beToNat (stream.take 4) > ELIXIR_TO_UI_CAP
    · simp [read_frame, read_exact, h4, h5] at hf
    · by_cases h6 : beToNat (stream.take 4) ≤ stream.length - 4
      · simp [read_frame, read_exact, h4, h5, h6] at hf
        obtain ⟨-, hr⟩ := hf
        subst hr
        simp only [List.length_drop]
        omega
      · simp [read_frame, read_exact, h4, h5, h6] at hf
  · simp [read_frame, read_exact, h4] at hf

/-- Unfolding of `reader_loop` when `read_frame` fails (it is defined by
well-founded recursion, so the proofs go through these equations). -/
theorem reader_loop_read_error (decode : List Nat → Except IoError ElixirEnvelope)
    (stream : List Nat) (e : IoError)
    (h : read_frame stream ELIXIR_TO_UI_CAP = Except.error e) :
    reader_loop decode stream =
      if e.kind = IoErrorKind.unexpectedEof then Except.ok ()
      else Except.error e := by
  rw [reader_loop]
  split
  · next payload rest hf =>
    rw [h] at hf
    cases hf
  · next e2 hf =>
    rw [h] at hf
    cases hf
    rfl

/-- Unfolding of `reader_loop` when `read_frame` yields a frame: the payload
is decoded; a decode error is returned, otherwise the loop continues on the
remaining stream. -/
theorem reader_loop_read_ok (decode : List Nat → Except IoError ElixirEnvelope)
    (stream payload rest : List Nat)
    (h : read_frame stream ELIXIR_TO_UI_CAP = Except.ok (payload, rest)) :
    reader_loop decode stream =
      match decode payload with
      | Except.ok _ => reader_loop decode rest
      | Except.error e => Except.error e := by
  rw [reader_loop]
  split
  · next p r hf =>
    rw [h] at hf
    injection hf with hpr
    injection hpr with hp hr
    subst hp
    subst hr
    rfl
  · next e2 hf =>
    rw [h] at hf
    cases hf

end Projection

namespace Projection

/-- C9: a failing Replace op is not atomic within the document. On the empty
root object, `Replace{path: "/a/b"}` creates the missing intermediate `"a"`
as an empty object during descent, then fails at the terminal token `"b"`, so
the op reports an error while the document is nevertheless mutated. -/
theorem replace_descent_mutates_on_failure :
    set_path (Json.obj []) "/a/b" (Json.str "v") true
      = (Json.obj [("a", Json.obj [])],
         Except.error "replace path does not exist: /a/b")
    ∧ Json.obj [("a", Json.obj [])] ≠ Json.obj [] :=
  ⟨rfl, by simp⟩

/-- C1 counterexample: a Replace whose terminal token equals the array's
length does not fail — `set_path` with `replace_only = true` on
`{"arr": ["a"]}` at path `/arr/1` succeeds and appends, because the array arm
of the terminal write never consults `replace_only`. -/
theorem replace_at_array_length_appends :
    set_path (Json.obj [("arr", Json.arr [Json.str "a"])]) "/arr/1"
        (Json.str "b") true
      = (Json.obj [("arr", Json.arr [Json.str "a", Json.str "b"])],
         Except.ok ()) := rfl

/-- C1 amended: a Replace (`set_path` with `replace_only = true`) whose
terminal parent is an object fails on a missing key and overwrites an
existing one; but on an array parent `replace_only` is not enforced: an index
accepted by `parse_index` against `[0, len]` appends when it equals `len` and
overwrites when below it, and only an index above `len` (or an unparsable
token) fails. The last two conjuncts tie the terminal write back to
`set_path` through the descent `setGo`. -/
theorem set_path_replace_semantics (path last : String) (v : Json) :
    (∀ entries, containsKey entries last = false →
      setTerminal (Json.obj entries) last v true path
        = (Json.obj entries,
           Except.error s!"replace path does not exist: {path}"))
    ∧ (∀ entries, containsKey entries last = true →
      setTerminal (Json.obj entries) last v true path
        = (Json.obj (insertKey entries last v), Except.ok ()))
    ∧ (∀ items : List Json,
        parse_index last items.length path = Except.ok items.length →
      setTerminal (Json.arr items) last v true path
        = (Json.arr (items ++ [v]), Except.ok ()))
    ∧ (∀ (items : List Json) (i : Nat),
        parse_index last items.length path = Except.ok i → i < items.length →
      setTerminal (Json.arr items) last v true path
        = (Json.arr (items.set i v), Except.ok ()))
    ∧ (∀ (items : List Json) (e : String),
        parse_index last items.length path = Except.error e →
      setTerminal (Json.arr items) last v true path
        = (Json.arr items, Except.error e))
    ∧ (∀ n, rustParseUsize last = some n →
        ∀ items : List Json, n > items.length →
          ∃ msg, setTerminal (Json.arr items) last v true path
            = (Json.arr items, Except.error msg))
    ∧ (∀ (root : Json) (t : String) (ts : List String),
        parse_pointer path = Except.ok (t :: ts) →
        set_path root path v true = setGo root t ts v true path)
    ∧ (∀ parent : Json,
        setGo parent last [] v true path = setTerminal parent last v true path) := by
  refine ⟨?_, ?_, ?_, ?_, ?_, ?_, ?_, ?_⟩
  · intro entries h
    simp [setTerminal, h]
  · intro entries h
    simp [setTerminal, h]
  · intro items h
    simp [setTerminal, h]
  · intro items i h hi
    simp [setTerminal, h]
    omega
  · intro items e h
    simp [setTerminal, h]
  · intro n h items hgt
    refine ⟨s!"array index out of bounds '{last}' at path {path}", ?_⟩
    have hp : parse_index last items.length path
        = Except.error s!"array index out of bounds '{last}' at path {path}" := by
      simp [parse_index, h, hgt]
    simp [setTerminal, hp]
  · intro root t ts h
    simp [set_path, h]
  · intro parent
    rfl

/-- C1 witness: concrete instances of the amended Replace semantics — a
missing object key fails, and an index equal to the array length appends. -/
theorem set_path_replace_semantics_witness :
    setTerminal (Json.obj []) "k" (Json.num 1) true "/k"
      = (Json.obj [], Except.error "replace path does not exist: /k")
    ∧ setTerminal (Json.arr [Json.num 0]) "1" (Json.num 1) true "/1"
      = (Json.arr [Json.num 0, Json.num 1], Except.ok ()) :=
  ⟨(set_path_replace_semantics "/k" "k" (Json.num 1)).1 [] rfl,
   (set_path_replace_semantics "/1" "1" (Json.num 1)).2.2.1 [Json.num 0] rfl⟩

/-- C10: array index tokens go through Rust `str::parse::<usize>` rather than
canonical JSON-Pointer decimal syntax, so the non-canonical tokens `"01"` and
`"+1"` are accepted by `parse_index` (for any bound of at least 1) and by
`descend_existing` on any array of length at least 2, and address index 1 —
the same element as the canonical token `"1"`. -/
theorem noncanonical_index_tokens_accepted (maxLen : Nat) (path : String)
    (items : List Json) :
    (1 ≤ maxLen →
      parse_index "01" maxLen path = Except.ok 1
      ∧ parse_index "+1" maxLen path = Except.ok 1)
    ∧ (2 ≤ items.length →
      descend_existing (Json.arr items) "01" = items.get? 1
      ∧ descend_existing (Json.arr items) "+1" = items.get? 1
      ∧ descend_existing (Json.arr items) "1" = items.get? 1
      ∧ (items.get? 1).isSome = true) := by
  constructor
  · intro h
    have h01 : rustParseUsize "01" = some 1 := by decide
    have hp1 : rustParseUsize "+1" = some 1 := by decide
    constructor
    · simp [parse_index, h01]
      omega
    · simp [parse_index, hp1]
      omega
  · intro h
    have h01 : rustParseUsize "01" = some 1 := by decide
    have hp1 : rustParseUsize "+1" = some 1 := by decide
    have h1 : rustParseUsize "1" = some 1 := by decide
    refine ⟨by simp [descend_existing, h01], by simp [descend_existing, hp1],
            by simp [descend_existing, h1], ?_⟩
    rw [List.get?_eq_getElem?]
    rw [List.getElem?_eq_getElem (by omega)]
    rfl

/-- C3: the revision state machine. With `last_rev` absent,
`validate_render_rev` accepts every revision and `validate_patch_rev` rejects
every revision; with `last_rev = r` (both sides in `u64` range) each accepts
`rev` if and only if `rev = (r + 1) mod 2 ^ 64`, the wrapping 64-bit
successor — so stale, skipped and historical revisions are rejected and `0`
is accepted after `r = 2 ^ 64 - 1`. -/
theorem revision_state_machine {ScreenId : Type} (st : UiModelState ScreenId)
    (rev : Nat) :
    (st.last_rev = none →
      validate_render_rev st rev = Except.ok ()
      ∧ ∃ msg, validate_patch_rev st rev = Except.error msg)
    ∧ (∀ r, st.last_rev = some r → r < U64 → rev < U64 →
        ((validate_render_rev st rev = Except.ok () ↔ rev = (r + 1) % U64)
         ∧ (validate_patch_rev st rev = Except.ok () ↔ rev = (r + 1) % U64))) := by
  constructor
  · intro h
    refine ⟨by simp [validate_render_rev, h], ?_⟩
    exact ⟨s!"patch received before initial render: rev={rev}, expected initial render",
      by simp [validate_patch_rev, h]⟩
  · intro r h _ _
    constructor
    · simp only [validate_render_rev, h]
      split
      · next heq => simp [heq]
      · next hne => simp [hne]
    · simp only [validate_patch_rev, h]
      split
      · next heq => simp [heq]
      · next hne => simp [hne]

/-- C3 witness: after `last_rev = 2 ^ 64 - 1`, revision `0` is accepted by
both validators, and with `last_rev` absent a patch at revision `1` is
rejected while a render at revision `7` is accepted. -/
theorem revision_state_machine_witness :
    validate_render_rev
        (⟨(), Json.obj [], some (2 ^ 64 - 1), none⟩ : UiModelState Unit) 0
      = Except.ok ()
    ∧ validate_patch_rev
        (⟨(), Json.obj [], some (2 ^ 64 - 1), none⟩ : UiModelState Unit) 0
      = Except.ok ()
    ∧ validate_render_rev
        (⟨(), Json.obj [], none, none⟩ : UiModelState Unit) 7
      = Except.ok ()
    ∧ (∃ msg, validate_patch_rev
        (⟨(), Json.obj [], none, none⟩ : UiModelState Unit) 1
      = Except.error msg) := by
  have hwrap := (revision_state_machine
      (⟨(), Json.obj [], some (2 ^ 64 - 1), none⟩ : UiModelState Unit) 0).2
      (2 ^ 64 - 1) rfl (by norm_num [U64]) (by norm_num [U64])
  have hzero : (0 : Nat) = (2 ^ 64 - 1 + 1) % U64 := by norm_num [U64]
  have hnone := (revision_state_machine
      (⟨(), Json.obj [], none, none⟩ : UiModelState Unit) 7).1 rfl
  have hnone1 := (revision_state_machine
      (⟨(), Json.obj [], none, none⟩ : UiModelState Unit) 1).1 rfl
  exact ⟨hwrap.1.mpr hzero, hwrap.2.mpr hzero, hnone.1, hnone1.2⟩

/-- C6 helper: once `last_ack` holds `v`, folding further acks yields the
running maximum of `v` and the later `Some` values. -/
theorem runAcks_last_ack_some {ScreenId : Type} (acks : List (Option Nat)) :
    ∀ (s : UiModelState ScreenId) (v : Nat), s.last_ack = some v →
      (runAcks s acks).last_ack = some ((acks.filterMap id).foldl max v) := by
  induction acks with
  | nil =>
    intro s v h
    simpa [runAcks] using h
  | cons a rest ih =>
    intro s v h
    cases a with
    | none =>
      have hstep : mark_applied_ack s none = s := by
        cases hs : s.last_ack <;> simp [mark_applied_ack, hs]
      simp only [runAcks, List.foldl_cons] at ih ⊢
      rw [hstep]
      simpa using ih s v h
    | some w =>
      have hstep : mark_applied_ack s (some w)
          = { s with last_ack := some (max v w) } := by
        simp [mark_applied_ack, h]
      simp only [runAcks, List.foldl_cons] at ih ⊢
      rw [hstep]
      have := ih { s with last_ack := some (max v w) } (max v w) rfl
      simpa using this

/-- C6: ack tracking is a high-water mark. `mark_applied_ack` with `None`
leaves the state unchanged; folding any sequence of acks from an absent
`last_ack` ends at `Some` of the maximum of the `Some` values (or stays
absent when there are none); and a present `last_ack` never decreases at any
single step. -/
theorem mark_applied_ack_high_water {ScreenId : Type}
    (s : UiModelState ScreenId) :
    mark_applied_ack s none = s
    ∧ (∀ acks : List (Option Nat), s.last_ack = none →
        (runAcks s acks).last_ack = acksMax acks)
    ∧ (∀ (ack : Option Nat) (v : Nat), s.last_ack = some v →
        ∃ w, v ≤ w ∧ (mark_applied_ack s ack).last_ack = some w) := by
  refine ⟨?_, ?_, ?_⟩
  · cases hs : s.last_ack <;> simp [mark_applied_ack, hs]
  · intro acks
    induction acks generalizing s with
    | nil =>
      intro h
      simpa [runAcks, acksMax] using h
    | cons a rest ih =>
      intro h
      cases a with
      | none =>
        have hstep : mark_applied_ack s none = s := by
          cases hs : s.last_ack <;> simp [mark_applied_ack, hs]
        simp only [runAcks, List.foldl_cons]
        rw [hstep]
        simpa [runAcks, acksMax] using ih s h
      | some w =>
        have hstep : mark_applied_ack s (some w)
            = { s with last_ack := some w } := by
          simp [mark_applied_ack, h]
        simp only [runAcks, List.foldl_cons]
        rw [hstep]
        have := runAcks_last_ack_some rest
            ({ s with last_ack := some w }) w rfl
        simp only [runAcks] at this
        rw [this]
        simp [acksMax]
  · intro ack v h
    cases ack with
    | none =>
      refine ⟨v, le_refl v, ?_⟩
      have hstep : mark_applied_ack s none = s := by
        cases hs : s.last_ack <;> simp [mark_applied_ack, hs]
      rw [hstep, h]
    | some w =>
      refine ⟨max v w, le_max_left v w, ?_⟩
      simp [mark_applied_ack, h]

/-- C6 witness: the spec's example sequence `None, Some 5, Some 3, Some 8`
folded from an absent `last_ack` ends at `Some 8`, and a `None` ack leaves a
state with `last_ack = Some 5` unchanged. -/
theorem mark_applied_ack_high_water_witness :
    (runAcks (⟨(), Json.obj [], none, none⟩ : UiModelState Unit)
        [none, some 5, some 3, some 8]).last_ack = some 8
    ∧ mark_applied_ack
        (⟨(), Json.obj [], none, some 5⟩ : UiModelState Unit) none
      = (⟨(), Json.obj [], none, some 5⟩ : UiModelState Unit) := by
  constructor
  · have h := (mark_applied_ack_high_water
        (⟨(), Json.obj [], none, none⟩ : UiModelState Unit)).2.1
        [none, some 5, some 3, some 8] rfl
    rw [h]
    rfl
  · exact (mark_applied_ack_high_water
      (⟨(), Json.obj [], none, some 5⟩ : UiModelState Unit)).1

/-- C5 helper: when a prefix of the op list succeeds, applying the whole list
continues from the document the prefix produced. -/
theorem apply_vm_patch_ops_append (pre post : List PatchOp) :
    ∀ vm vm2, apply_vm_patch_ops vm pre = (vm2, Except.ok ()) →
      apply_vm_patch_ops vm (pre ++ post) = apply_vm_patch_ops vm2 post := by
  induction pre with
  | nil =>
    intro vm vm2 h
    simp only [apply_vm_patch_ops, Prod.mk.injEq] at h
    rw [List.nil_append, h.1]
  | cons op rest ih =>
    intro vm vm2 h
    rw [List.cons_append]
    cases hop : apply_op vm op with
    | mk vmh res =>
      cases res with
      | ok u =>
        cases u
        simp only [apply_vm_patch_ops, hop] at h ⊢
        exact ih vmh vm2 h
      | error e =>
        simp only [apply_vm_patch_ops, hop, Prod.mk.injEq] at h
        exact absurd h.2 (by simp)

/-- C5: `apply_vm_patch_ops` applies the ops strictly in list order and stops
at the first failing op. When a prefix succeeds, applying the concatenation
equals continuing on the prefix's result (so a fully successful list is the
sequential application of its ops); when the next op fails, that op's error
and its partially-mutated document are returned no matter what follows — the
remaining ops are never applied and the prefix's mutations persist. -/
theorem apply_vm_patch_ops_first_failure (vm : Json) (pre post : List PatchOp) :
    (∀ vm2, apply_vm_patch_ops vm pre = (vm2, Except.ok ()) →
       apply_vm_patch_ops vm (pre ++ post) = apply_vm_patch_ops vm2 post)
    ∧ (∀ vm2 vmf op e, apply_vm_patch_ops vm pre = (vm2, Except.ok ()) →
        apply_op vm2 op = (vmf, Except.error e) →
        apply_vm_patch_ops vm (pre ++ op :: post) = (vmf, Except.error e)) := by
  constructor
  · intro vm2 h
    exact apply_vm_patch_ops_append pre post vm vm2 h
  · intro vm2 vmf op e h hop
    rw [apply_vm_patch_ops_append pre (op :: post) vm vm2 h]
    simp only [apply_vm_patch_ops, hop]

/-- C5 witness: in `[Add /a, Replace /b, Add /c]` on the empty object the
`Replace` fails; the result keeps the mutation of the first op, carries the
`Replace` error, and the trailing `Add /c` is never applied. -/
theorem apply_vm_patch_ops_first_failure_witness :
    apply_vm_patch_ops (Json.obj [])
        [PatchOp.add "/a" (Json.num 1),
         PatchOp.replace "/b" (Json.num 2),
         PatchOp.add "/c" (Json.num 3)]
      = (Json.obj [("a", Json.num 1)],
         Except.error "replace path does not exist: /b") :=
  (apply_vm_patch_ops_first_failure (Json.obj [])
      [PatchOp.add "/a" (Json.num 1)] [PatchOp.add "/c" (Json.num 3)]).2
    (Json.obj [("a", Json.num 1)]) (Json.obj [("a", Json.num 1)])
    (PatchOp.replace "/b" (Json.num 2))
    "replace path does not exist: /b" rfl rfl

/-- C7 helper: unescaping distributes over a tilde-free leading segment. -/
theorem unescapeChars_append_clean (l : List Char) (hl : '~' ∉ l)
    (r : List Char) :
    unescapeChars (l ++ r) = (unescapeChars r).map (fun out => l ++ out) := by
  induction l with
  | nil =>
    cases h : unescapeChars r <;> simp [Except.map, h]
  | cons c rest ih =>
    have hc : ¬ c = '~' := fun he => hl (by rw [he]; exact List.mem_cons_self _ _)
    have hrest : '~' ∉ rest := fun hm => hl (List.mem_cons_of_mem _ hm)
    rw [List.cons_append]
    rw [unescapeChars.eq_def]
    dsimp only
    rw [if_neg hc]
    rw [ih hrest]
    cases h : unescapeChars r <;> simp [Except.map, h]

/-- C7: JSON-Pointer parsing. The empty path parses to the empty token list;
a non-empty path whose first character is not `/` is an error; otherwise the
tokens are the `/`-separated pieces after the leading slash, each unescaped
with `~1` mapped to `/` and `~0` mapped to `~`, while `~` followed by any
other character — or a trailing `~` — is an error. Concrete instances:
`/a~1b` targets key `a/b`, `/a~0b` targets `a~b`, and a token containing
`~x` fails. -/
theorem parse_pointer_spec :
    parse_pointer "" = Except.ok []
    ∧ (∀ (path : String) (c : Char) (cs : List Char),
        path.data = c :: cs → c ≠ '/' →
        parse_pointer path
          = Except.error s!"invalid json pointer path: {path}")
    ∧ (∀ (path : String) (rest : List Char), path.data = '/' :: rest →
        parse_pointer path
          = (splitOnChar '/' rest).mapM
              (fun t => unescape_json_pointer_token (String.mk t)))
    ∧ (∀ l : List Char, '~' ∉ l → unescapeChars l = Except.ok l)
    ∧ (∀ (l r : List Char), '~' ∉ l →
        unescapeChars (l ++ '~' :: '1' :: r)
          = (unescapeChars r).map (fun out => l ++ '/' :: out))
    ∧ (∀ (l r : List Char), '~' ∉ l →
        unescapeChars (l ++ '~' :: '0' :: r)
          = (unescapeChars r).map (fun out => l ++ '~' :: out))
    ∧ (∀ (l r : List Char) (c : Char), '~' ∉ l → c ≠ '0' → c ≠ '1' →
        unescapeChars (l ++ '~' :: c :: r)
          = Except.error s!"invalid escape ~{c} in json pointer token")
    ∧ (∀ l : List Char, '~' ∉ l →
        unescapeChars (l ++ ['~'])
          = Except.error "trailing ~ in json pointer token")
    ∧ parse_pointer "/a~1b" = Except.ok ["a/b"]
    ∧ parse_pointer "/a~0b" = Except.ok ["a~b"]
    ∧ parse_pointer "/a~xb"
        = Except.error "invalid escape ~x in json pointer token" := by
  refine ⟨rfl, ?_, ?_, ?_, ?_, ?_, ?_, ?_, rfl, rfl, rfl⟩
  · intro path c cs hdata hc
    have hne : ¬ path = "" := by
      intro he
      rw [he] at hdata
      exact absurd hdata (by simp)
    rw [parse_pointer, if_neg hne]
    rw [hdata]
    split
    · next rest heq =>
      exact absurd (List.head_eq_of_cons_eq heq) hc
    · rfl
  · intro path rest hdata
    have hne : ¬ path = "" := by
      intro he
      rw [he] at hdata
      exact absurd hdata (by simp)
    rw [parse_pointer, if_neg hne]
    rw [hdata]
    rfl
  · intro l hl
    have h := unescapeChars_append_clean l hl []
    simpa [Except.map, unescapeChars] using h
  · intro l r hl
    rw [unescapeChars_append_clean l hl]
    have h1 : unescapeChars ('~' :: '1' :: r)
        = (unescapeChars r).map (fun out => '/' :: out) := by
      rw [unescapeChars.eq_def]
      simp [Except.map]
    rw [h1]
    cases h : unescapeChars r <;> simp [Except.map, h]
  · intro l r hl
    rw [unescapeChars_append_clean l hl]
    have h0 : unescapeChars ('~' :: '0' :: r)
        = (unescapeChars r).map (fun out => '~' :: out) := by
      rw [unescapeChars.eq_def]
      simp [Except.map]
    rw [h0]
    cases h : unescapeChars r <;> simp [Except.map, h]
  · intro l r c hl hc0 hc1
    rw [unescapeChars_append_clean l hl]
    rw [unescapeChars.eq_def]
    simp [hc0, hc1, Except.map]
  · intro l hl
    rw [unescapeChars_append_clean l hl]
    rw [unescapeChars.eq_def]
    simp [Except.map]

/-- C7 witness: the general conjuncts instantiated at concrete inputs — a
path not starting with a slash is rejected; a clean token unescapes to
itself; an unknown escape and a trailing tilde fail. -/
theorem parse_pointer_spec_witness :
    parse_pointer "ab" = Except.error "invalid json pointer path: ab"
    ∧ unescapeChars ['a', 'b'] = Except.ok ['a', 'b']
    ∧ unescapeChars ['a', '~', 'x', 'b']
        = Except.error "invalid escape ~x in json pointer token"
    ∧ unescapeChars ['a', '~']
        = Except.error "trailing ~ in json pointer token" := by
  refine ⟨parse_pointer_spec.2.1 "ab" 'a' ['b'] rfl (by decide), ?_, ?_, ?_⟩
  · exact parse_pointer_spec.2.2.2.1 ['a', 'b'] (by decide)
  · exact parse_pointer_spec.2.2.2.2.2.2.1 ['a'] ['b'] 'x' (by decide)
      (by decide) (by decide)
  · exact parse_pointer_spec.2.2.2.2.2.2.2.1 ['a'] (by decide)

/-- C8: screen swap detection. `patch_changes_screen ops` is true iff some op
(Replace, Add or Remove) has path `"/screen/name"`; and after a successful
VM mutation, `apply_patch` invokes the full `apply_screen_render` — storing
the returned screen id — exactly when `patch_changes_screen ops` is true, and
otherwise invokes the incremental `apply_screen_patch` with the existing
screen id. -/
theorem patch_changes_screen_spec {ScreenId : Type} (B : Bindings ScreenId)
    (st : UiModelState ScreenId) (ops : List PatchOp) :
    (patch_changes_screen ops = true
      ↔ ∃ op ∈ ops, PatchOp.path op = "/screen/name")
    ∧ (∀ vm2, apply_vm_patch_ops st.vm ops = (vm2, Except.ok ()) →
        (patch_changes_screen ops = true →
          (apply_patch B ops st).2
            = [ToolkitCall.globals vm2, ToolkitCall.render vm2]
          ∧ ∀ sid, B.apply_screen_render vm2 = Except.ok sid →
              (apply_patch B ops st).1
                = ({ st with vm := vm2, screen_id := sid }, Except.ok ()))
        ∧ (patch_changes_screen ops = false →
          (apply_patch B ops st).2
            = [ToolkitCall.globals vm2,
               ToolkitCall.patch st.screen_id ops vm2]
          ∧ ∀ u, B.apply_screen_patch st.screen_id ops vm2 = Except.ok u →
              (apply_patch B ops st).1
                = ({ st with vm := vm2 }, Except.ok ()))) := by
  constructor
  · simp [patch_changes_screen, List.any_eq_true]
  · intro vm2 hops
    constructor
    · intro hscreen
      constructor
      · cases hr : B.apply_screen_render vm2 <;>
          simp [apply_patch, hops, hscreen, hr]
      · intro sid hr
        simp [apply_patch, hops, hscreen, hr]
    · intro hscreen
      constructor
      · cases hr : B.apply_screen_patch st.screen_id ops vm2 <;>
          simp [apply_patch, hops, hscreen, hr]
      · intro u hr
        cases u
        simp [apply_patch, hops, hscreen, hr]

/-- C8 witness: a single Replace of `/screen/name` triggers the full-render
path and stores the new screen id, while a Replace of `/app/title` takes the
incremental path with the existing screen id. -/
theorem patch_changes_screen_spec_witness :
    patch_changes_screen [PatchOp.replace "/screen/name" (Json.str "devices")]
      = true
    ∧ (apply_patch
        (⟨fun _ => Except.ok 7, fun _ _ _ => Except.ok ()⟩ : Bindings Nat)
        [PatchOp.replace "/screen/name" (Json.str "devices")]
        (⟨3, Json.obj [("screen", Json.obj [("name", Json.str "home")])],
          none, none⟩ : UiModelState Nat)).1
      = ((⟨7, Json.obj [("screen", Json.obj [("name", Json.str "devices")])],
          none, none⟩ : UiModelState Nat), Except.ok ())
    ∧ (apply_patch
        (⟨fun _ => Except.ok 7, fun _ _ _ => Except.ok ()⟩ : Bindings Nat)
        [PatchOp.replace "/app/title" (Json.str "X")]
        (⟨3, Json.obj [("app", Json.obj [("title", Json.str "T")])],
          none, none⟩ : UiModelState Nat)).2
      = [ToolkitCall.globals (Json.obj [("app", Json.obj [("title", Json.str "X")])]),
         ToolkitCall.patch 3 [PatchOp.replace "/app/title" (Json.str "X")]
           (Json.obj [("app", Json.obj [("title", Json.str "X")])])] := by
  refine ⟨rfl, ?_, ?_⟩
  · exact (((patch_changes_screen_spec
        (⟨fun _ => Except.ok 7, fun _ _ _ => Except.ok ()⟩ : Bindings Nat)
        (⟨3, Json.obj [("screen", Json.obj [("name", Json.str "home")])],
          none, none⟩ : UiModelState Nat)
        [PatchOp.replace "/screen/name" (Json.str "devices")]).2
        (Json.obj [("screen", Json.obj [("name", Json.str "devices")])])
        rfl).1 rfl).2 7 rfl
  · exact (((patch_changes_screen_spec
        (⟨fun _ => Except.ok 7, fun _ _ _ => Except.ok ()⟩ : Bindings Nat)
        (⟨3, Json.obj [("app", Json.obj [("title", Json.str "T")])],
          none, none⟩ : UiModelState Nat)
        [PatchOp.replace "/app/title" (Json.str "X")]).2
        (Json.obj [("app", Json.obj [("title", Json.str "X")])])
        rfl).2 rfl).1

/-- C4 helper: the big-endian 4-byte encoding decodes to the encoded value
for anything in `u32` range. -/
theorem beToNat_u32be (n : Nat) (h : n < 2 ^ 32) : beToNat (u32be n) = n := by
  simp only [beToNat, u32be, List.foldl_cons, List.foldl_nil, Nat.zero_mul,
    Nat.zero_add]
  omega

/-- C4 helper: `read_exact` consumes exactly the prefix it was asked for. -/
theorem read_exact_append (l r : List Nat) :
    read_exact (l ++ r) l.length = Except.ok (l, r) := by
  rw [read_exact, if_pos (by simp)]
  rw [List.take_left, List.drop_left]

/-- C4 helper: the round trip for a single general bound. -/
theorem write_read_frame (p : List Nat) (maxPayload : Nat)
    (hp : p.length ≤ maxPayload) (h32 : p.length < 2 ^ 32) :
    write_frame p maxPayload = Except.ok (u32be p.length ++ p)
    ∧ read_frame (u32be p.length ++ p) maxPayload = Except.ok (p, []) := by
  constructor
  · rw [write_frame, if_neg (by omega), if_neg (by omega)]
  · have h4 : (u32be p.length).length = 4 := rfl
    have hx : read_exact (u32be p.length ++ p) 4
        = Except.ok (u32be p.length, p) := by
      rw [← h4]
      exact read_exact_append (u32be p.length) p
    rw [read_frame, hx]
    simp only [beToNat_u32be p.length h32]
    rw [if_neg (by omega)]
    have he : read_exact p p.length = Except.ok (p, []) := by
      have := read_exact_append p []
      simpa using this
    rw [he]

/-- C4: framing round trip at the program's two size ceilings. Every payload
within the ceiling is written as the 4-byte big-endian encoding of its length
followed by the payload itself, and `read_frame` on those bytes with the same
ceiling returns exactly the payload (consuming the whole stream); writing
`"abc"` produces the bytes `00 00 00 03 61 62 63`. -/
theorem frame_round_trip :
    (∀ p : List Nat, p.length ≤ UI_TO_ELIXIR_CAP →
      write_frame p UI_TO_ELIXIR_CAP = Except.ok (u32be p.length ++ p)
      ∧ read_frame (u32be p.length ++ p) UI_TO_ELIXIR_CAP
          = Except.ok (p, []))
    ∧ (∀ p : List Nat, p.length ≤ ELIXIR_TO_UI_CAP →
      write_frame p ELIXIR_TO_UI_CAP = Except.ok (u32be p.length ++ p)
      ∧ read_frame (u32be p.length ++ p) ELIXIR_TO_UI_CAP
          = Except.ok (p, []))
    ∧ write_frame [97, 98, 99] UI_TO_ELIXIR_CAP
        = Except.ok [0, 0, 0, 3, 97, 98, 99] := by
  refine ⟨?_, ?_, rfl⟩
  · intro p hp
    exact write_read_frame p UI_TO_ELIXIR_CAP hp
      (lt_of_le_of_lt hp (by norm_num [UI_TO_ELIXIR_CAP]))
  · intro p hp
    exact write_read_frame p ELIXIR_TO_UI_CAP hp
      (lt_of_le_of_lt hp (by norm_num [ELIXIR_TO_UI_CAP]))

/-- C4 witness: the round trip evaluated on the payload `"abc"`
(bytes `61 62 63`). -/
theorem frame_round_trip_witness :
    write_frame [97, 98, 99] UI_TO_ELIXIR_CAP
      = Except.ok [0, 0, 0, 3, 97, 98, 99]
    ∧ read_frame [0, 0, 0, 3, 97, 98, 99] UI_TO_ELIXIR_CAP
      = Except.ok ([97, 98, 99], []) := by
  have h := frame_round_trip.1 [97, 98, 99] (by norm_num [UI_TO_ELIXIR_CAP])
  exact ⟨h.1, h.2⟩

/-- C2 counterexample: a stream that ends mid-payload (header declares 5
bytes, only 2 follow) makes `read_frame` fail with an `UnexpectedEof`-kind
error, and `reader_loop` converts that into *success* — not the framing
error the claim requires. The decoder (here one that always fails) is never
consulted. -/
theorem reader_loop_truncated_success_counterexample :
    reader_loop
        (fun _ => Except.error ⟨IoErrorKind.invalidData, "decode error"⟩)
        [0, 0, 0, 5, 97, 98]
      = Except.ok () := by
  have h : read_frame [0, 0, 0, 5, 97, 98] ELIXIR_TO_UI_CAP
      = Except.error
          ⟨IoErrorKind.unexpectedEof, "failed to fill whole buffer"⟩ := rfl
  rw [reader_loop_read_error _ _ _ h]
  rfl

/-- C2 amended: `reader_loop` returns success exactly when frame reading ends
with an `UnexpectedEof`-kind error — at a clean frame boundary (header-only
EOF with no bytes read), but also mid-header and mid-payload of a truncated
final frame; it returns the error on any other framing failure (an oversized
length yields `InvalidData`) and on any decoding failure, and otherwise
consumes the frame and continues. -/
theorem reader_loop_termination_spec
    (decode : List Nat → Except IoError ElixirEnvelope) :
    reader_loop decode [] = Except.ok ()
    ∧ (∀ stream : List Nat, stream.length < 4 →
        reader_loop decode stream = Except.ok ())
    ∧ (∀ (len : Nat) (truncated : List Nat),
        truncated.length < len → len ≤ ELIXIR_TO_UI_CAP →
        reader_loop decode (u32be len ++ truncated) = Except.ok ())
    ∧ (∀ (len : Nat) (rest : List Nat), ELIXIR_TO_UI_CAP < len →
        len < 2 ^ 32 →
        reader_loop decode (u32be len ++ rest)
          = Except.error ⟨IoErrorKind.invalidData,
              s!"frame too large: {len} > {ELIXIR_TO_UI_CAP}"⟩)
    ∧ (∀ (stream payload rest : List Nat) (e : IoError),
        read_frame stream ELIXIR_TO_UI_CAP = Except.ok (payload, rest) →
        decode payload = Except.error e →
        reader_loop decode stream = Except.error e)
    ∧ (∀ (stream payload rest : List Nat) (env : ElixirEnvelope),
        read_frame stream ELIXIR_TO_UI_CAP = Except.ok (payload, rest) →
        decode payload = Except.ok env →
        reader_loop decode stream = reader_loop decode rest) := by
  refine ⟨?_, ?_, ?_, ?_, ?_, ?_⟩
  · have h : read_frame [] ELIXIR_TO_UI_CAP
        = Except.error
            ⟨IoErrorKind.unexpectedEof, "failed to fill whole buffer"⟩ := rfl
    rw [reader_loop_read_error _ _ _ h]
    rfl
  · intro stream hlen
    have hx : read_exact stream 4
        = Except.error
            ⟨IoErrorKind.unexpectedEof, "failed to fill whole buffer"⟩ := by
      rw [read_exact, if_neg (by omega)]
    have h : read_frame stream ELIXIR_TO_UI_CAP
        = Except.error
            ⟨IoErrorKind.unexpectedEof, "failed to fill whole buffer"⟩ := by
      rw [read_frame, hx]
    rw [reader_loop_read_error _ _ _ h]
    rfl
  · intro len truncated htr hcap
    have h4 : (u32be len).length = 4 := rfl
    have hx : read_exact (u32be len ++ truncated) 4
        = Except.ok (u32be len, truncated) := by
      rw [← h4]
      exact read_exact_append _ _
    have hbe : beToNat (u32be len) = len := by
      refine beToNat_u32be len ?_
      have hc : ELIXIR_TO_UI_CAP = 1048576 := rfl
      omega
    have hx2 : read_exact truncated len
        = Except.error
            ⟨IoErrorKind.unexpectedEof, "failed to fill whole buffer"⟩ := by
      rw [read_exact, if_neg (by omega)]
    have h : read_frame (u32be len ++ truncated) ELIXIR_TO_UI_CAP
        = Except.error
            ⟨IoErrorKind.unexpectedEof, "failed to fill whole buffer"⟩ := by
      rw [read_frame, hx]
      simp only [hbe]
      rw [if_neg (by omega), hx2]
    rw [reader_loop_read_error _ _ _ h]
    rfl
  · intro len rest hcap h32
    have h4 : (u32be len).length = 4 := rfl
    have hx : read_exact (u32be len ++ rest) 4
        = Except.ok (u32be len, rest) := by
      rw [← h4]
      exact read_exact_append _ _
    have hbe : beToNat (u32be len) = len := beToNat_u32be len h32
    have h : read_frame (u32be len ++ rest) ELIXIR_TO_UI_CAP
        = Except.error ⟨IoErrorKind.invalidData,
            s!"frame too large: {len} > {ELIXIR_TO_UI_CAP}"⟩ := by
      rw [read_frame, hx]
      simp only [hbe]
      rw [if_pos (by omega)]
    rw [reader_loop_read_error _ _ _ h]
    rfl
  · intro stream payload rest e hrf hd
    rw [reader_loop_read_ok _ _ _ _ hrf, hd]
  · intro stream payload rest env hrf hd
    rw [reader_loop_read_ok _ _ _ _ hrf, hd]

/-- C2 witness: a stream that is exactly one header announcing 3 payload
bytes with none following (mid-payload EOF) is accepted as a clean
termination by `reader_loop`. -/
theorem reader_loop_termination_spec_witness :
    reader_loop
        (fun _ => Except.ok (ElixirEnvelope.error "S1" none "c" "m"))
        [0, 0, 0, 3]
      = Except.ok () := by
  have h := (reader_loop_termination_spec
      (fun _ => Except.ok (ElixirEnvelope.error "S1" none "c" "m"))).2.2.1 3 []
      (by norm_num)
      (by norm_num [ELIXIR_TO_UI_CAP])
  simpa using h

/-- C10 witness: the non-canonical tokens at a concrete bound and a concrete
two-element array. -/
theorem noncanonical_index_tokens_accepted_witness :
    parse_index "01" 1 "/p" = Except.ok 1
    ∧ descend_existing (Json.arr [Json.num 0, Json.num 9]) "+1"
        = some (Json.num 9) := by
  refine ⟨((noncanonical_index_tokens_accepted 1 "/p" []).1 (by decide)).1, ?_⟩
  have h := ((noncanonical_index_tokens_accepted 1 "/p"
      [Json.num 0, Json.num 9]).2 (by decide)).2.1
  simpa using h

end Projection
